import Mathlib

/-!
Verification of the client-side document-submission and results-management
subsystem of the Smart-SoF frontend.

The embedding models the two source components:
* `FileUpload.jsx` — slot validation (`handleFileChange`) and submission
  (`handleSubmit`, with the submit button's `disabled` guard);
* `ResultsTable.jsx` — the in-memory record store (edit / delete / clear /
  export / column derivation).

JavaScript objects (processed records) are modelled as insertion-ordered
association lists `List (String × String)`; JavaScript `undefined` reads are
modelled with `Option`.
-/

/-- A selected file, as the controller sees it: only its declared name
matters to the validation logic. -/
structure DocFile where
  name : String
deriving Repr, DecidableEq

/-- Model of JavaScript `String.prototype.split` with a single-character
separator, on the character list: adjacent separators yield empty segments,
and the result is never the empty list (`"".split('.') = [""]`). -/
def splitOnChar (c : Char) : List Char → List (List Char)
  | [] => [[]]
  | x :: xs =>
    let r := splitOnChar c xs
    if x = c then [] :: r
    else
      match r with
      | [] => [[x]]
      | y :: ys => (x :: y) :: ys

theorem splitOnChar_ne_nil (c : Char) (l : List Char) : splitOnChar c l ≠ [] := by
  induction l with
  | nil => simp [splitOnChar]
  | cons x xs ih =>
    simp only [splitOnChar]
    split
    · simp
    · cases h : splitOnChar c xs with
      | nil => simp
      | cons y ys => simp [h]

theorem splitOnChar_of_not_mem (c : Char) (l : List Char) (h : c ∉ l) :
    splitOnChar c l = [l] := by
  induction l with
  | nil => rfl
  | cons x xs ih =>
    simp only [List.mem_cons, not_or] at h
    simp only [splitOnChar, ih h.2]
    rw [if_neg (fun hx => h.1 hx.symm)]

/-- `FileUpload.jsx` lines 39–40: `file.name.split('.')`, take the last
segment, lowercase it. -/
def fileExtensionOf (name : String) : String :=
  String.mk (((splitOnChar '.' name.data).getLastD []).map Char.toLower)

/-- Outcome of one `handleFileChange` call: the new content of the targeted
slot (the `setter` argument) and the new shared error-message field. -/
structure SlotResult where
  slot : Option DocFile
  error : String
deriving Repr, DecidableEq

/-- The validation message of `FileUpload.jsx` line 42. -/
def invalidTypeMsg (allowedTypes : List String) : String :=
  "Invalid file type for this slot. Allowed: " ++ String.intercalate ", " allowedTypes

/-- `FileUpload.jsx` lines 36–50 (`handleFileChange`): clear the error; if a
file is given, accept it only when the lowercased last dot-segment of its
name is in `allowedTypes`, otherwise clear the slot and set the message; if
no file is given, clear the slot. -/
def handleFileChange (allowedTypes : List String) (file : Option DocFile) : SlotResult :=
  match file with
  | some f =>
    let fileExtension := fileExtensionOf f.name
    if allowedTypes.contains fileExtension then
      { slot := some f, error := "" }
    else
      { slot := none, error := invalidTypeMsg allowedTypes }
  | none => { slot := none, error := "" }

/-- Shared characterisation of `handleFileChange` on a present file:
populated iff the computed extension is allowed, with the corresponding
error-field content in each case. -/
theorem handleFileChange_some_spec
    (f : DocFile) (allowed : List String) :
    ((handleFileChange allowed (some f)).slot = some f ↔
        fileExtensionOf f.name ∈ allowed)
    ∧ (fileExtensionOf f.name ∈ allowed →
        handleFileChange allowed (some f) = { slot := some f, error := "" })
    ∧ (fileExtensionOf f.name ∉ allowed →
        handleFileChange allowed (some f) =
          { slot := none,
            error := "Invalid file type for this slot. Allowed: "
              ++ String.intercalate ", " allowed }) := by
  by_cases h : fileExtensionOf f.name ∈ allowed
  · refine ⟨?_, fun _ => ?_, fun hc => absurd h hc⟩
    · simp [handleFileChange, List.contains, List.elem_iff, h]
    · simp [handleFileChange, List.contains, List.elem_iff, h]
  · refine ⟨?_, fun hc => absurd hc h, fun _ => ?_⟩
    · simp [handleFileChange, List.contains, List.elem_iff, h]
    · simp [handleFileChange, List.contains, List.elem_iff, h, invalidTypeMsg]

/-- C1 — `select(slot, f, allowed)` populates the slot iff the lowercase
final dot-delimited extension segment of `f`'s name is in `allowed`; on
acceptance the error is cleared, on rejection the slot ends up unset and the
user-visible message names the allowed set. -/
theorem C1_select_populates_iff_extension_allowed
    (f : DocFile) (allowed : List String) :
    ((handleFileChange allowed (some f)).slot = some f ↔
        fileExtensionOf f.name ∈ allowed)
    ∧ (fileExtensionOf f.name ∈ allowed →
        handleFileChange allowed (some f) = { slot := some f, error := "" })
    ∧ (fileExtensionOf f.name ∉ allowed →
        handleFileChange allowed (some f) =
          { slot := none,
            error := "Invalid file type for this slot. Allowed: "
              ++ String.intercalate ", " allowed }) :=
  handleFileChange_some_spec f allowed

/-- Witness for C1 at a concrete input: a `.docx` file into a slot allowing
`pdf, docx` is accepted with the error cleared. -/
theorem C1_select_witness :
    fileExtensionOf (DocFile.mk "Report.DOCX").name ∈ ["pdf", "docx"]
    ∧ handleFileChange ["pdf", "docx"] (some (DocFile.mk "Report.DOCX")) =
        { slot := some (DocFile.mk "Report.DOCX"), error := "" } :=
  ⟨by decide,
   (C1_select_populates_iff_extension_allowed (DocFile.mk "Report.DOCX")
      ["pdf", "docx"]).2.1 (by decide)⟩

/-- C10 — a filename with no dot is judged by its whole lowercased name (the
last element of the dot-split is the whole name), so such a file is accepted
iff its full lowercased name is in the allowed list; a multi-extension name
like `a.tar.gz` is judged only by its final segment `gz`. -/
theorem C10_no_dot_whole_name_is_extension
    (f : DocFile) (allowed : List String) :
    ('.' ∉ f.name.data →
      fileExtensionOf f.name = String.mk (f.name.data.map Char.toLower)
      ∧ ((handleFileChange allowed (some f)).slot = some f ↔
          String.mk (f.name.data.map Char.toLower) ∈ allowed))
    ∧ fileExtensionOf "a.tar.gz" = "gz" := by
  refine ⟨fun h => ?_, by decide⟩
  have hext : fileExtensionOf f.name = String.mk (f.name.data.map Char.toLower) := by
    unfold fileExtensionOf
    rw [splitOnChar_of_not_mem '.' f.name.data h]
    rfl
  refine ⟨hext, ?_⟩
  have h1 := (handleFileChange_some_spec f allowed).1
  rw [hext] at h1
  exact h1

/-- Witness for C10: a file literally named `pdf` (no dot) is accepted into a
slot allowing `pdf`. -/
theorem C10_no_dot_witness :
    ('.' ∉ (DocFile.mk "pdf").name.data)
    ∧ (handleFileChange ["pdf", "docx"] (some (DocFile.mk "pdf"))).slot
        = some (DocFile.mk "pdf") :=
  ⟨by decide,
   (((C10_no_dot_whole_name_is_extension (DocFile.mk "pdf") ["pdf", "docx"]).1
      (by decide)).2).mpr (by decide)⟩

/-- A processed record: a JavaScript object as an insertion-ordered
association list of field name to scalar value (scalars modelled as
strings). -/
abbrev Record := List (String × String)

/-- The component state of `FileUpload.jsx` lines 30–34: three file slots,
the `loading` flag and the shared error message. -/
structure UploadState where
  sofFile : Option DocFile
  cpFile : Option DocFile
  additionalFile : Option DocFile
  loading : Bool
  error : String
deriving Repr, DecidableEq

/-- The extraction service's reply, per the collaborator interface: an HTTP
success flag and status, the status text, an optional `detail` field of the
parsed error body, and the `processed_data` array of the success envelope. -/
structure ServerResponse where
  ok : Bool
  status : Nat
  statusText : String
  detail : Option String
  processed_data : List Record
deriving Repr, DecidableEq

/-- Observable outcome of one submission attempt: the resulting component
state, the list of multipart payloads actually sent over the network, and
the record array handed to the results view (the `navigate` call), if any. -/
structure SubmitOutcome where
  state : UploadState
  requests : List (List (String × DocFile))
  handoff : Option (List Record)
deriving Repr, DecidableEq

/-- The mandatory-slot validation message of `FileUpload.jsx` line 55. -/
def missingSofMsg : String :=
  "Please upload the Statement of Facts document (SOF)."

/-- JavaScript `a || b` on a possibly-absent string: `undefined` and the
empty string are falsy. -/
def jsOrElse (x : Option String) (alt : String) : String :=
  match x with
  | some v => if v = "" then alt else v
  | none => alt

/-- The thrown message of `FileUpload.jsx` line 80:
`Server error: ${response.status} - ${errorData.detail || response.statusText}`. -/
def serverErrorMsg (resp : ServerResponse) : String :=
  "Server error: " ++ toString resp.status ++ " - "
    ++ jsOrElse resp.detail resp.statusText

/-- `FileUpload.jsx` lines 62–70: the multipart payload. `sof_file` is always
appended; `cp_file` and `additional_file` only when their slots are
populated. -/
def buildFormData (sof : DocFile) (cp addl : Option DocFile) : List (String × DocFile) :=
  [("sof_file", sof)]
    ++ (match cp with | some g => [("cp_file", g)] | none => [])
    ++ (match addl with | some g => [("additional_file", g)] | none => [])

/-- `FileUpload.jsx` lines 52–94 (`handleSubmit`), given the service's reply
to the (at most one) request it issues. With an empty primary slot it sets
the validation message and returns before any network call. Otherwise it
sends the form data; on success it clears the error and hands
`processed_data` to the results view; on a non-ok response it sets the
service-error message and hands nothing over. `loading` is reset in the
`finally` block on both response paths. -/
def handleSubmit (s : UploadState) (resp : ServerResponse) : SubmitOutcome :=
  match s.sofFile with
  | none =>
    { state := { s with error := missingSofMsg }, requests := [], handoff := none }
  | some sof =>
    let payload := buildFormData sof s.cpFile s.additionalFile
    if resp.ok then
      { state := { s with loading := false, error := "" },
        requests := [payload],
        handoff := some resp.processed_data }
    else
      { state :=
          { s with
            loading := false,
            error := "Failed to process documents: " ++ serverErrorMsg resp },
        requests := [payload],
        handoff := none }

/-- The component state while a submission is in flight: `FileUpload.jsx`
lines 59–60 run `setLoading(true); setError('')` before the fetch, so the
controller is in the `submitting` state until the `finally` block. -/
def inFlightState (s : UploadState) : UploadState :=
  { s with loading := true, error := "" }

/-- The only invocation path of `handleSubmit`: the Submit Documents button
(`FileUpload.jsx` lines 176–184), whose `disabled={loading || !sofFile}`
guard makes a click a no-op while a submission is in flight or the primary
slot is empty. -/
def clickSubmit (s : UploadState) (resp : ServerResponse) : SubmitOutcome :=
  if s.loading || s.sofFile.isNone then
    { state := s, requests := [], handoff := none }
  else handleSubmit s resp

/-- The result store's content after a submission attempt: a handoff
replaces it wholesale (`ResultsTable.jsx` lines 31–53); with no handoff no
navigation occurs and the store is untouched. -/
def resultSetAfter (prev : List Record) (h : Option (List Record)) : List Record :=
  match h with
  | some r => r
  | none => prev

/-- C2 — `submit()` with an empty primary slot fails with the
missing-required-file validation message, issues zero network calls, and
changes nothing else: slots and `loading` keep their values and no handoff
occurs. -/
theorem C2_missing_primary_no_network
    (s : UploadState) (resp : ServerResponse) (hs : s.sofFile = none) :
    handleSubmit s resp =
      { state := { s with error := missingSofMsg }, requests := [], handoff := none } := by
  simp [handleSubmit, hs]

/-- Witness for C2: a fully idle state with no files selected. -/
theorem C2_missing_primary_witness :
    handleSubmit (UploadState.mk none none none false "") (ServerResponse.mk true 200 "OK" none []) =
      { state := UploadState.mk none none none false missingSofMsg,
        requests := [], handoff := none } :=
  C2_missing_primary_no_network
    (UploadState.mk none none none false "") (ServerResponse.mk true 200 "OK" none []) rfl

/-- C3 — while a submission is in flight (`loading = true`), a repeated
submit is ignored: the click is a no-op with zero requests and an unchanged
state; any single submission attempt issues at most one request; and the
state reached right after a submission starts does have `loading = true`, so
a second click during flight is in fact ignored. -/
theorem C3_no_concurrent_submit (s : UploadState) (resp : ServerResponse) :
    (s.loading = true →
      clickSubmit s resp = { state := s, requests := [], handoff := none })
    ∧ (clickSubmit s resp).requests.length ≤ 1
    ∧ (∀ resp2 : ServerResponse,
        clickSubmit (inFlightState s) resp2 =
          { state := inFlightState s, requests := [], handoff := none }) := by
  refine ⟨fun h => by simp [clickSubmit, h], ?_, fun resp2 => by simp [clickSubmit, inFlightState]⟩
  unfold clickSubmit
  split
  · simp
  · cases hs : s.sofFile with
    | none => simp [handleSubmit, hs]
    | some sof =>
      simp only [handleSubmit, hs]
      split <;> simp

/-- Witness for C3: with a file selected but a submission already in flight,
the click changes nothing and sends nothing. -/
theorem C3_no_concurrent_submit_witness :
    clickSubmit (UploadState.mk (some (DocFile.mk "a.pdf")) none none true "")
        (ServerResponse.mk true 200 "OK" none []) =
      { state := UploadState.mk (some (DocFile.mk "a.pdf")) none none true "",
        requests := [], handoff := none } :=
  (C3_no_concurrent_submit
    (UploadState.mk (some (DocFile.mk "a.pdf")) none none true "")
    (ServerResponse.mk true 200 "OK" none [])).1 rfl

/-- C4 — on every non-success response, `submit()` surfaces a service error
carrying the HTTP status and the service-provided detail (falling back to
the status text), the controller returns to idle (`loading = false`, slots
untouched), and no handoff occurs, so the previous result set is
unchanged. -/
theorem C4_service_error_no_transfer
    (s : UploadState) (sof : DocFile) (resp : ServerResponse) (prev : List Record)
    (hs : s.sofFile = some sof) (hok : resp.ok = false) :
    (handleSubmit s resp).handoff = none
    ∧ resultSetAfter prev (handleSubmit s resp).handoff = prev
    ∧ (handleSubmit s resp).state =
        { s with
          loading := false,
          error := "Failed to process documents: "
            ++ ("Server error: " ++ toString resp.status ++ " - "
                  ++ jsOrElse resp.detail resp.statusText) } := by
  refine ⟨?_, ?_, ?_⟩ <;> simp [handleSubmit, hs, hok, resultSetAfter, serverErrorMsg]

/-- Witness for C4: a 500 response with a `detail` body against a state with
only the primary slot filled, and a one-record previous result set. -/
theorem C4_service_error_witness :
    (handleSubmit (UploadState.mk (some (DocFile.mk "a.pdf")) none none true "")
        (ServerResponse.mk false 500 "Internal Server Error" (some "boom") [])).handoff = none
    ∧ resultSetAfter [[("id", "1")]]
        (handleSubmit (UploadState.mk (some (DocFile.mk "a.pdf")) none none true "")
          (ServerResponse.mk false 500 "Internal Server Error" (some "boom") [])).handoff
        = [[("id", "1")]]
    ∧ (handleSubmit (UploadState.mk (some (DocFile.mk "a.pdf")) none none true "")
        (ServerResponse.mk false 500 "Internal Server Error" (some "boom") [])).state =
      { UploadState.mk (some (DocFile.mk "a.pdf")) none none true "" with
        loading := false,
        error := "Failed to process documents: "
          ++ ("Server error: " ++ toString (500 : Nat) ++ " - "
                ++ jsOrElse (some "boom") "Internal Server Error") } :=
  C4_service_error_no_transfer
    (UploadState.mk (some (DocFile.mk "a.pdf")) none none true "")
    (DocFile.mk "a.pdf")
    (ServerResponse.mk false 500 "Internal Server Error" (some "boom") [])
    [[("id", "1")]] rfl rfl

/-- C8 — the multipart payload of a submittable request carries the primary
file under `sof_file`, each populated optional slot under its own distinct
field name (`cp_file`, `additional_file`), and an empty optional slot
contributes nothing to the payload; with both optional slots empty the
payload is exactly one file part. -/
theorem C8_payload_shape
    (s : UploadState) (sof : DocFile) (resp : ServerResponse)
    (hs : s.sofFile = some sof) :
    (handleSubmit s resp).requests = [buildFormData sof s.cpFile s.additionalFile]
    ∧ ("sof_file", sof) ∈ buildFormData sof s.cpFile s.additionalFile
    ∧ (∀ g : DocFile,
        (("cp_file", g) ∈ buildFormData sof s.cpFile s.additionalFile ↔
          s.cpFile = some g))
    ∧ (∀ g : DocFile,
        (("additional_file", g) ∈ buildFormData sof s.cpFile s.additionalFile ↔
          s.additionalFile = some g))
    ∧ (s.cpFile = none → s.additionalFile = none →
        buildFormData sof s.cpFile s.additionalFile = [("sof_file", sof)]) := by
  refine ⟨?_, ?_, fun g => ?_, fun g => ?_, fun hc ha => ?_⟩
  · cases hok : resp.ok <;> simp [handleSubmit, hs, hok]
  · cases hc : s.cpFile <;> cases ha : s.additionalFile <;> simp [buildFormData]
  · cases hc : s.cpFile <;> cases ha : s.additionalFile <;>
      simp [buildFormData, hc, ha, eq_comm]
  · cases hc : s.cpFile <;> cases ha : s.additionalFile <;>
      simp [buildFormData, hc, ha, eq_comm]
  · simp [buildFormData, hc, ha]

/-- Witness for C8: only the mandatory slot filled sends exactly one file
part, under the `sof_file` field name. -/
theorem C8_payload_shape_witness :
    (handleSubmit (UploadState.mk (some (DocFile.mk "a.pdf")) none none false "")
        (ServerResponse.mk true 200 "OK" none [])).requests
      = [[("sof_file", DocFile.mk "a.pdf")]] := by
  have h := C8_payload_shape
    (UploadState.mk (some (DocFile.mk "a.pdf")) none none false "")
    (DocFile.mk "a.pdf")
    (ServerResponse.mk true 200 "OK" none []) rfl
  rw [h.1, h.2.2.2.2 rfl rfl]

/-- The JavaScript property read `row.id`: the value of the `id` key, or
`undefined` (`none`) when absent. -/
def rowId (row : Record) : Option String := row.lookup "id"

/-- `Object.keys`: the insertion-ordered key list of an object. -/
def objectKeys (r : Record) : List String := r.map Prod.fst

/-- JavaScript object spread update (`ResultsTable.jsx` line 68): copy the
object and set one key — an existing key keeps its position and gets the new
value, a new key is appended at the end. -/
def spreadUpdate (prev : Record) (name value : String) : Record :=
  if (objectKeys prev).contains name then
    prev.map (fun p => if p.1 = name then (name, value) else p)
  else prev ++ [(name, value)]

/-- `ResultsTable.jsx` lines 55–59 (`handleEditClick`): seed the edit buffer
with a copy of the clicked row. -/
def handleEditClick (row : Record) : Record := row

/-- `ResultsTable.jsx` lines 66–69 (`handleFieldChange`): set one field of
the edit buffer via object spread. -/
def handleFieldChange (name value : String) (prev : Record) : Record :=
  spreadUpdate prev name value

/-- `ResultsTable.jsx` lines 72–84 (`handleSaveEdit`): map over the table,
replacing every row whose `id` equals the edit buffer's `id` with the
buffer's contents. -/
def handleSaveEdit (currentEditedRow : Record) (prevData : List Record) : List Record :=
  prevData.map (fun row =>
    if rowId row = rowId currentEditedRow then currentEditedRow else row)

/-- `ResultsTable.jsx` lines 87–96 (`handleConfirmDelete`): keep exactly the
rows whose `id` differs from the id to delete. -/
def handleConfirmDelete (rowToDeleteId : Option String) (prevData : List Record) :
    List Record :=
  prevData.filter (fun row => !(rowId row == rowToDeleteId))

/-- `ResultsTable.jsx` lines 145–147: the display columns are the keys of
the first row with `id` filtered out, or the empty list for an empty
table. -/
def columns (tableData : List Record) : List String :=
  match tableData with
  | [] => []
  | r :: _ => (objectKeys r).filter (fun key => !(key == "id"))

/-- Updating a key other than `id` (in place) does not change the `id`
read. -/
theorem lookup_id_map_set (k v : String) (hk : k ≠ "id") (r : Record) :
    List.lookup "id" (r.map (fun p => if p.1 = k then (k, v) else p))
      = List.lookup "id" r := by
  induction r with
  | nil => rfl
  | cons p t ih =>
    obtain ⟨a, b⟩ := p
    have hidk : (("id" : String) == k) = false :=
      beq_eq_false_iff_ne.mpr (fun h => hk h.symm)
    by_cases hp : a = k
    · subst hp
      simp [List.lookup_cons, hidk, ih]
    · simp [List.lookup_cons, hp, ih]

/-- Appending a key other than `id` does not change the `id` read. -/
theorem lookup_id_append_single (k v : String) (hk : k ≠ "id") (r : Record) :
    List.lookup "id" (r ++ [(k, v)]) = List.lookup "id" r := by
  induction r with
  | nil =>
    have hidk : (("id" : String) == k) = false :=
      beq_eq_false_iff_ne.mpr (fun h => hk h.symm)
    simp [List.lookup_cons, hidk]
  | cons p t ih =>
    obtain ⟨a, b⟩ := p
    cases hab : (("id" : String) == a) <;> simp [List.lookup_cons, hab, ih]

/-- A spread update of a field other than `id` preserves the record's
identity. -/
theorem rowId_spreadUpdate (r : Record) (k v : String) (hk : k ≠ "id") :
    rowId (spreadUpdate r k v) = rowId r := by
  unfold spreadUpdate rowId
  split
  · exact lookup_id_map_set k v hk r
  · exact lookup_id_append_single k v hk r

/-- A save-edit map leaves every row with a non-matching `id` in place. -/
theorem map_saveEdit_id (buf : Record) (l : List Record)
    (h : ∀ x ∈ l, rowId x ≠ rowId buf) :
    l.map (fun row => if rowId row = rowId buf then buf else row) = l := by
  induction l with
  | nil => rfl
  | cons x t ih =>
    rw [List.map_cons, if_neg (h x (List.mem_cons_self x t)),
      ih (fun y hy => h y (List.mem_cons_of_mem x hy))]

/-- Splitting a duplicate-free id column: every record on either side of the
distinguished one carries a different `id`. -/
theorem nodup_ids_split (l₁ l₂ : List Record) (r : Record)
    (h : ((l₁ ++ r :: l₂).map rowId).Nodup) :
    (∀ x ∈ l₁, rowId x ≠ rowId r) ∧ (∀ x ∈ l₂, rowId x ≠ rowId r) := by
  rw [List.map_append, List.map_cons, List.nodup_append] at h
  obtain ⟨_, h2, hdisj⟩ := h
  refine ⟨fun x hx heq => ?_, fun x hx heq => ?_⟩
  · exact hdisj (List.mem_map_of_mem rowId hx)
      (heq ▸ List.mem_cons_self (rowId r) (l₂.map rowId))
  · exact (List.nodup_cons.mp h2).1 (heq ▸ List.mem_map_of_mem rowId hx)

/-- Replacement behaviour of the save-edit map when the buffer's `id`
matches the distinguished record and no other record shares that `id`. -/
theorem handleSaveEdit_replace (buf r : Record) (l₁ l₂ : List Record)
    (hbuf : rowId buf = rowId r)
    (h1 : ∀ x ∈ l₁, rowId x ≠ rowId r)
    (h2 : ∀ x ∈ l₂, rowId x ≠ rowId r) :
    handleSaveEdit buf (l₁ ++ r :: l₂) = l₁ ++ buf :: l₂ := by
  unfold handleSaveEdit
  rw [List.map_append, List.map_cons, if_pos hbuf.symm]
  rw [map_saveEdit_id buf l₁ (fun x hx => hbuf ▸ h1 x hx),
    map_saveEdit_id buf l₂ (fun x hx => hbuf ▸ h2 x hx)]

/-- C5 — after `beginEdit(r)` and `updateBuffer(field, v)` (for a display
field, i.e. `field ≠ id`), `commitEdit()` on a result set with
duplicate-free ids replaces exactly the record at `r`'s position with the
buffer (`r` with `field` set to `v`); all other records and their order are
untouched. If no record's `id` matches the buffer's, `commitEdit()` is a
no-op. -/
theorem C5_commitEdit_replaces_exactly_one
    (r : Record) (field v : String) (hf : field ≠ "id") :
    (∀ (l₁ l₂ : List Record),
      ((l₁ ++ r :: l₂).map rowId).Nodup →
      handleSaveEdit (handleFieldChange field v (handleEditClick r)) (l₁ ++ r :: l₂)
        = l₁ ++ spreadUpdate r field v :: l₂)
    ∧ (∀ (buf : Record) (rs : List Record),
        (∀ row ∈ rs, rowId row ≠ rowId buf) → handleSaveEdit buf rs = rs) := by
  constructor
  · intro l₁ l₂ hnd
    obtain ⟨h1, h2⟩ := nodup_ids_split l₁ l₂ r hnd
    exact handleSaveEdit_replace (spreadUpdate r field v) r l₁ l₂
      (rowId_spreadUpdate r field v hf) h1 h2
  · intro buf rs h
    exact map_saveEdit_id buf rs h

/-- Witness for C5: editing field `a` of the record with id `1` in a
two-record set replaces exactly that record and leaves the other one
untouched. -/
theorem C5_commitEdit_witness :
    handleSaveEdit
        (handleFieldChange "a" "y" (handleEditClick [("id", "1"), ("a", "x")]))
        ([[("id", "2"), ("a", "z")]] ++ [("id", "1"), ("a", "x")] :: [])
      = [[("id", "2"), ("a", "z")]] ++ spreadUpdate [("id", "1"), ("a", "x")] "a" "y" :: [] :=
  (C5_commitEdit_replaces_exactly_one [("id", "1"), ("a", "x")] "a" "y" (by decide)).1
    [[("id", "2"), ("a", "z")]] [] (by decide)

/-- C6 — `deleteRecord(id)` keeps the remaining records in their relative
order (the result is a sublist of the input), removes exactly the rows whose
`id` matches, is a no-op when no row matches, and is idempotent: deleting
the same id twice equals deleting it once. -/
theorem C6_deleteRecord_idempotent_order_preserving
    (i : Option String) (rs : List Record) :
    (handleConfirmDelete i rs).Sublist rs
    ∧ (∀ row ∈ handleConfirmDelete i rs, rowId row ≠ i)
    ∧ (∀ row ∈ rs, rowId row ≠ i → row ∈ handleConfirmDelete i rs)
    ∧ ((∀ row ∈ rs, rowId row ≠ i) → handleConfirmDelete i rs = rs)
    ∧ handleConfirmDelete i (handleConfirmDelete i rs) = handleConfirmDelete i rs := by
  unfold handleConfirmDelete
  refine ⟨List.filter_sublist rs, ?_, ?_, ?_, ?_⟩
  · intro row hrow
    have h := (List.mem_filter.mp hrow).2
    simpa using h
  · intro row hrow hne
    exact List.mem_filter.mpr ⟨hrow, by simpa using hne⟩
  · intro h
    apply List.filter_eq_self.mpr
    intro row hrow
    simpa using h row hrow
  · apply List.filter_eq_self.mpr
    intro row hrow
    exact (List.mem_filter.mp hrow).2

/-- Witness for C6: deleting id `1` from a two-record set, then deleting it
again, leaves the surviving record set unchanged. -/
theorem C6_deleteRecord_witness :
    handleConfirmDelete (some "1")
        (handleConfirmDelete (some "1")
          [[("id", "1"), ("a", "x")], [("id", "2"), ("a", "y")]])
      = handleConfirmDelete (some "1")
          [[("id", "1"), ("a", "x")], [("id", "2"), ("a", "y")]]
    ∧ handleConfirmDelete (some "1")
        [[("id", "1"), ("a", "x")], [("id", "2"), ("a", "y")]]
      = [[("id", "2"), ("a", "y")]] :=
  ⟨(C6_deleteRecord_idempotent_order_preserving (some "1")
      [[("id", "1"), ("a", "x")], [("id", "2"), ("a", "y")]]).2.2.2.2,
   by decide⟩

/-- C7 — `deriveColumns()` is the ordered field-name list of the first
record with `id` excluded, the empty list on an empty set, and — being
recomputed at each read from the current set — after a successful
submission's handoff it equals the columns of the freshly received
records. -/
theorem C7_deriveColumns_first_record :
    columns ([] : List Record) = []
    ∧ (∀ (r : Record) (rest : List Record),
        columns (r :: rest) = (objectKeys r).filter (fun key => !(key == "id")))
    ∧ (∀ (s : UploadState) (sof : DocFile) (resp : ServerResponse) (prev : List Record),
        s.sofFile = some sof → resp.ok = true →
        columns (resultSetAfter prev (handleSubmit s resp).handoff)
          = columns resp.processed_data) := by
  refine ⟨rfl, fun r rest => rfl, fun s sof resp prev hs hok => ?_⟩
  simp [handleSubmit, hs, hok, resultSetAfter]

/-- Witness for C7: a successful submission delivering one record with
fields `id`, `vessel`, `port` yields columns `vessel, port`. -/
theorem C7_deriveColumns_witness :
    columns (resultSetAfter []
        (handleSubmit (UploadState.mk (some (DocFile.mk "a.pdf")) none none false "")
          (ServerResponse.mk true 200 "OK" none
            [[("id", "1"), ("vessel", "Ever Given"), ("port", "Rotterdam")]])).handoff)
      = ["vessel", "port"] := by
  rw [C7_deriveColumns_first_record.2.2
    (UploadState.mk (some (DocFile.mk "a.pdf")) none none false "")
    (DocFile.mk "a.pdf")
    (ServerResponse.mk true 200 "OK" none
      [[("id", "1"), ("vessel", "Ever Given"), ("port", "Rotterdam")]])
    [] rfl rfl]
  decide

/-- Observable outcome of a download handler: either the user-visible
`alert` notice, or a produced file with its download name and content. -/
inductive ExportOutcome where
  | notice (msg : String)
  | fileOut (filename content : String)
deriving Repr, DecidableEq

/-- Model of the external `Papa.unparse` default serialization (third-party
library, not part of this repository): a header row from the first record's
keys, then one comma-joined row per record in that key order. -/
def csvUnparse (rs : List Record) : String :=
  let cols := objectKeys (rs.headD [])
  String.intercalate "\r\n"
    (String.intercalate "," cols ::
      rs.map (fun r => String.intercalate "," (cols.map (fun c => (r.lookup c).getD ""))))

/-- One escaped JSON string character (model of the JavaScript built-in
serializer's escaping, for the characters that can matter here). -/
def jsonEscapeChar (c : Char) : String :=
  if c = '"' then "\\\""
  else if c = '\\' then "\\\\"
  else if c = '\n' then "\\n"
  else String.mk [c]

/-- A JSON string literal. -/
def jsonQuote (s : String) : String :=
  "\"" ++ String.join (s.data.map jsonEscapeChar) ++ "\""

/-- One record as a two-space-indented JSON object (model of the JavaScript
built-in `JSON.stringify` with indent 2, not part of this repository). -/
def jsonOfRecord (r : Record) : String :=
  "  \x7b\n"
    ++ String.intercalate ",\n"
        (r.map (fun p => "    " ++ jsonQuote p.1 ++ ": " ++ jsonQuote p.2))
    ++ "\n  \x7d"

/-- The whole table as a pretty-printed JSON array. -/
def jsonStringifyRecords (rs : List Record) : String :=
  "[\n" ++ String.intercalate ",\n" (rs.map jsonOfRecord) ++ "\n]"

/-- `ResultsTable.jsx` lines 111–125 (`handleDownloadCSV`): alert and bail
out on an empty table, otherwise produce `results.csv`; the table itself is
never mutated. -/
def handleDownloadCSV (tableData : List Record) : ExportOutcome × List Record :=
  if tableData.length = 0 then
    (ExportOutcome.notice "No data to download.", tableData)
  else
    (ExportOutcome.fileOut "results.csv" (csvUnparse tableData), tableData)

/-- `ResultsTable.jsx` lines 127–141 (`handleDownloadJSON`): alert and bail
out on an empty table, otherwise produce `results.json`; the table itself is
never mutated. -/
def handleDownloadJSON (tableData : List Record) : ExportOutcome × List Record :=
  if tableData.length = 0 then
    (ExportOutcome.notice "No data to download.", tableData)
  else
    (ExportOutcome.fileOut "results.json" (jsonStringifyRecords tableData), tableData)

/-- C9 — both export operations reject an empty result set with the
user-visible "nothing to export" notice and produce no file, and neither
ever changes the result set. -/
theorem C9_empty_export_rejected (rs : List Record) :
    (rs = [] →
      handleDownloadCSV rs = (ExportOutcome.notice "No data to download.", rs)
      ∧ handleDownloadJSON rs = (ExportOutcome.notice "No data to download.", rs))
    ∧ (handleDownloadCSV rs).2 = rs
    ∧ (handleDownloadJSON rs).2 = rs := by
  refine ⟨fun h => ?_, ?_, ?_⟩
  · subst h
    exact ⟨rfl, rfl⟩
  · unfold handleDownloadCSV
    split <;> rfl
  · unfold handleDownloadJSON
    split <;> rfl

/-- Witness for C9: exporting the empty table surfaces the notice in both
formats and leaves the table empty. -/
theorem C9_empty_export_witness :
    handleDownloadCSV ([] : List Record)
        = (ExportOutcome.notice "No data to download.", ([] : List Record))
    ∧ handleDownloadJSON ([] : List Record)
        = (ExportOutcome.notice "No data to download.", ([] : List Record)) :=
  (C9_empty_export_rejected ([] : List Record)).1 rfl
